import Mathlib

/-!
Verification of the build-event reporting pipeline of the
taro-webpack-runner package (src/packages/taro-webpack-runner/src/index.ts).

The embedding models the terminal output of one compile pass as a list of
output events.  Chalk coloring is modelled as the ANSI escape wrapping that
the chalk library performs.  The webpack compiler, the message classifier
(formatWebpackMessage, which lives outside this package tree) and the stats
object are external collaborators: the handlers are modelled as functions of
the classified error and warning lists and of the formatted stats summary.
-/

namespace Taro

/-- Chalk green: ANSI color 32. -/
def chalkGreen (s : String) : String := "\x1b[32m" ++ s ++ "\x1b[39m"

/-- Chalk red: ANSI color 31. -/
def chalkRed (s : String) : String := "\x1b[31m" ++ s ++ "\x1b[39m"

/-- Chalk yellow: ANSI color 33. -/
def chalkYellow (s : String) : String := "\x1b[33m" ++ s ++ "\x1b[39m"

/-- Chalk cyan: ANSI color 36. -/
def chalkCyan (s : String) : String := "\x1b[36m" ++ s ++ "\x1b[39m"

/-- Chalk gray: ANSI color 90. -/
def chalkGray (s : String) : String := "\x1b[90m" ++ s ++ "\x1b[39m"

/-- Chalk underline: ANSI mode 4. -/
def chalkUnderline (s : String) : String := "\x1b[4m" ++ s ++ "\x1b[24m"

/-- One terminal output action of the reporting pipeline.
persist is spinner.stopAndPersist with a symbol and a text, log is
console.log (arguments already joined by single spaces), write is
process.stdout.write, clear is spinner.clear. -/
inductive OutEvent where
  | persist (symbol : String) (text : String)
  | log (s : String)
  | write (s : String)
  | clear
deriving DecidableEq

/-- True exactly for console.log events. -/
def OutEvent.isLog : OutEvent → Bool
  | .log _ => true
  | _ => false

/-- A JavaScript value as it flows through printBuildError: the expressions
err != null && err.message and err != null && err.stack evaluate to false,
undefined, or a string. -/
inductive JSVal where
  | vBool (b : Bool)
  | vUndef
  | vStr (s : String)
deriving DecidableEq

/-- JavaScript truthiness of the modelled values. -/
def JSVal.truthy : JSVal → Bool
  | .vBool b => b
  | .vUndef => false
  | .vStr s => s != ""

/-- The typeof v === string test. -/
def JSVal.isStr : JSVal → Bool
  | .vStr _ => true
  | _ => false

/-- Underlying string of a string value (default empty). -/
def JSVal.strVal : JSVal → String
  | .vStr s => s
  | _ => ""

/-- A JavaScript Error object, with possibly absent message and stack. -/
structure JSError where
  message : Option String
  stack : Option String
deriving DecidableEq

/-- Evaluation of err != null && err.message (source line 29). -/
def jsMessage (err : Option JSError) : JSVal :=
  match err with
  | none => .vBool false
  | some e =>
    match e.message with
    | none => .vUndef
    | some s => .vStr s

/-- Evaluation of err != null && err.stack (source line 30). -/
def jsStack (err : Option JSError) : JSVal :=
  match err with
  | none => .vBool false
  | some e =>
    match e.stack with
    | none => .vUndef
    | some s => .vStr s

/-- The test message.indexOf(from UglifyJs) !== -1 (source line 31). -/
def hasMarker (s : String) : Bool :=
  decide ("from UglifyJs".toList <:+: s.toList)

/-- Modelled from JavaScript String coercion: the expression
(message || err) + a string renders null as null and an Error through its
default toString, Error: message. -/
def errToString (err : Option JSError) : String :=
  match err with
  | none => "null"
  | some e =>
    match e.message with
    | none => "Error"
    | some m => if m = "" then "Error" else "Error: " ++ m

/-- Modelled from Node console semantics: console.log renders an Error
argument through its stack when present, else through its toString. -/
def inspectErr (err : Option JSError) : String :=
  match err with
  | none => "null"
  | some e =>
    match e.stack with
    | none => errToString err
    | some s => s

/-- A character matchable by the regex dot (JavaScript dot does not match
line terminators). -/
def dotOk (ch : Char) : Bool :=
  ch != '\n' && ch != '\r' && ch != '\u2028' && ch != '\u2029'

/-- Every character of the list is matchable by the regex dot. -/
def dotAll (l : List Char) : Bool := l.all dotOk

/-- Try f at n, n-1, ..., 1 and return the first success: the backtracking
order of a greedy one-or-more quantifier. -/
def findDesc {α : Type} (f : Nat → Option α) : Nat → Option α
  | 0 => none
  | n + 1 => (f (n + 1)).orElse fun _ => findDesc f n

/-- Greedy match of a dot-plus group followed by the literal character ch at
the start of s, passing the group and the remainder to the continuation k;
on failure of the continuation the group is shortened (backtracking). -/
def greedyDot {β : Type} (s : List Char) (ch : Char)
    (k : List Char → List Char → Option β) : Option β :=
  findDesc
    (fun i =>
      if dotAll (s.take i) && (s[i]? == some ch) then
        k (s.take i) (s.drop (i + 1))
      else none)
    s.length

/-- Continuation after the final bracketed dot-plus group of the minifier
stack regex: the captures path, line, column are returned. -/
def contK5 (g2 g3 g4 : List Char) :
    List Char → List Char → Option (List Char × List Char × List Char) :=
  fun _ _ => some (g2, g3, g4)

/-- Continuation after the closing bracket of the location group: a literal
opening bracket, then a greedy dot-plus group, then a closing bracket. -/
def contK4 (g2 g3 : List Char) (g4 s4 : List Char) :
    Option (List Char × List Char × List Char) :=
  match s4 with
  | '[' :: s5 => greedyDot s5 ']' (contK5 g2 g3 g4)
  | _ => none

/-- Continuation after the comma of the location group. -/
def contK3 (g2 : List Char) (g3 s3 : List Char) :
    Option (List Char × List Char × List Char) :=
  greedyDot s3 ']' (contK4 g2 g3)

/-- Continuation after the colon of the location group. -/
def contK2 (g2 s2 : List Char) :
    Option (List Char × List Char × List Char) :=
  greedyDot s2 ',' (contK3 g2)

/-- Continuation after the first opening bracket. -/
def contK1 (_g1 s1 : List Char) :
    Option (List Char × List Char × List Char) :=
  greedyDot s1 ':' contK2

/-- Attempt of the regex (.+)\[(.+):(.+),(.+)\]\[.+\] at the start of s,
greedy with backtracking, returning the second, third and fourth captures. -/
def matchAt (s : List Char) : Option (List Char × List Char × List Char) :=
  greedyDot s '[' contK1

/-- Unanchored exec of the regex (source line 33): try each start position
from the left, greedy at each. -/
def execPat : List Char → Option (List Char × List Char × List Char)
  | [] => none
  | a :: rest => (matchAt (a :: rest)).orElse fun _ => execPat rest

/-- The console.log text of the matched-minifier branch (source line 40),
with the three arguments joined by single spaces and the column suffix
omitted when the column capture is the string 0. -/
def minifyLogText (p l c : List Char) : String :=
  "Failed to minify the code from this file: \n\n " ++
    chalkYellow ("\t" ++ p.asString ++ ":" ++ l.asString ++
      (if c = ['0'] then "" else ":" ++ c.asString)) ++ " \n"

/-- The try block of printBuildError (source lines 32-40): a failed regex
match is raised as an exception (Using errors for control flow is bad). -/
def tryMinify (stack : String) : Except String String :=
  match execPat stack.toList with
  | none => .error "Using errors for control flow is bad."
  | some (p, l, c) => .ok (minifyLogText p l c)

/-- printBuildError (source lines 28-48).  The catch of the try block turns
the raised exception into the Failed to minify the bundle log; every path
ends with the final bare console.log of line 47. -/
def printBuildError (err : Option JSError) : List OutEvent :=
  if (jsStack err).truthy && (jsMessage err).isStr &&
      hasMarker (jsMessage err).strVal then
    match tryMinify (jsStack err).strVal with
    | .ok txt => [.log txt, .log ""]
    | .error _ => [.log ("Failed to minify the bundle. " ++ inspectErr err), .log ""]
  else
    [.log ((if (jsMessage err).truthy then (jsMessage err).strVal
            else errToString err) ++ "\n"), .log ""]

/-- Modelled from Node semantics: new Error(msg) carries msg as its message
and a stack whose first line is Error: followed by the message, then frame
lines. -/
def newError (msg : String) : JSError :=
  ⟨some msg, some ("Error: " ++ msg ++ "\n    at Object.<anonymous>")⟩

/-- The taroDone hook of createCompiler (source lines 57-82), as a function
of the classified error and warning lists.  The three if blocks are not
chained by else: splice(1) keeps only the first element of a list. -/
def taroDone (errors warnings : List String) : List OutEvent :=
  (if errors.isEmpty && warnings.isEmpty then
    [.persist "✅ " (chalkGreen "Compile successfully!\n")]
   else []) ++
  (if errors.isEmpty then []
   else
    [.persist "🙅  " (chalkRed "Compile failed!\n"),
     .log (String.intercalate "\n\n" (errors.take 1) ++ "\n")]) ++
  (if warnings.isEmpty then []
   else
    [.persist "⚠️  " (chalkYellow "Compile completes with warnings.\n"),
     .log (String.intercalate "\n\n" (warnings.take 1) ++ "\n")])

/-- The compiler.run callback of buildProd (source lines 99-138), as a
function of the engine error, the classified lists and the formatted stats
summary (stats.toString with modules, children, chunks and chunkModules
excluded).  The success and error branches return early, so the chain is
exclusive; the error branch truncates to the first element, the warnings
branch does not. -/
def buildProdCallback (err : Option JSError) (errors warnings : List String)
    (statsSummary : String) : List OutEvent :=
  match err with
  | some e => printBuildError (some e)
  | none =>
    if errors.isEmpty && warnings.isEmpty then
      [.persist "✅ " (chalkGreen "Compile successfully!\n"),
       .write (statsSummary ++ "\n")]
    else if errors.isEmpty then
      [.persist "⚠️  " (chalkYellow "Compile completes with warnings.\n"),
       .log (String.intercalate "\n\n" warnings),
       .log ("\nSearch for the " ++ chalkUnderline (chalkYellow "keywords") ++
         " to learn more about each warning."),
       .log ("To ignore, add " ++ chalkCyan "// eslint-disable-next-line" ++
         " to the line before.\n")]
    else
      [.persist "🙅  " (chalkRed "Compile failed!\n")] ++
        printBuildError (some (newError
          (String.intercalate "\n\n" (errors.take 1))))

/-- The listening banner of the taroDoneFirst hook (source lines 171-175). -/
def bannerEvents (lanUrl localUrl : String) : List OutEvent :=
  [.clear, .log "",
   .log (chalkCyan ("ℹ️  Listening at " ++ lanUrl)),
   .log (chalkCyan ("ℹ️  Listening at " ++ localUrl)),
   .log (chalkGray "\n监听文件修改中...\n")]

/-- One firing of the taroDoneFirst hook (source lines 168-177): the
module-level isFirst latch is consumed on the first firing. -/
def taroDoneFirst (isFirst : Bool) (lanUrl localUrl : String) :
    Bool × List OutEvent :=
  if isFirst then (false, bannerEvents lanUrl localUrl) else (isFirst, [])

/-- The outputs of n successive compile-complete events through the
taroDoneFirst hook, threading the latch. -/
def runDoneFirst (lanUrl localUrl : String) : Nat → Bool → List (List OutEvent)
  | 0, _ => []
  | n + 1, b =>
    (taroDoneFirst b lanUrl localUrl).2 ::
      runDoneFirst lanUrl localUrl n (taroDoneFirst b lanUrl localUrl).1

/-- A spinner instance: the creation counter identifies the instance. -/
structure Spinner where
  id : Nat
  text : String
deriving DecidableEq

/-- The closure state of getServeSpinner: the cached instance and the next
fresh instance identifier. -/
structure SpinnerCache where
  cached : Option Spinner
  nextId : Nat
deriving DecidableEq

/-- getServeSpinner (source lines 20-26): create the spinner lazily on first
use and return the cached instance afterwards. -/
def getServeSpinner (st : SpinnerCache) : Spinner × SpinnerCache :=
  match st.cached with
  | some sp => (sp, st)
  | none =>
    ((⟨st.nextId, "Starting development server, please wait~"⟩ : Spinner),
     ⟨some ⟨st.nextId, "Starting development server, please wait~"⟩,
      st.nextId + 1⟩)

/-- An operation of a build session: a getServeSpinner call, or any other
operation (none of which assigns the closure variable). -/
inductive SessionOp where
  | getSpinner
  | other
deriving DecidableEq

/-- Run a sequence of session operations, collecting the spinner returned by
each getServeSpinner call. -/
def runOps : List SessionOp → SpinnerCache → List Spinner
  | [], _ => []
  | SessionOp.getSpinner :: rest, st =>
    (getServeSpinner st).1 :: runOps rest (getServeSpinner st).2
  | SessionOp.other :: rest, st => runOps rest st

/-- Number of getServeSpinner calls in an operation sequence. -/
def countGets : List SessionOp → Nat
  | [] => 0
  | SessionOp.getSpinner :: rest => countGets rest + 1
  | SessionOp.other :: rest => countGets rest

end Taro

namespace Taro

lemma findDesc_eq_some {α : Type} {f : Nat → Option α} {a : α} {m : Nat}
    (hm : 1 ≤ m) (hfm : f m = some a) (hnone : ∀ j, m < j → f j = none)
    (n : Nat) (hmn : m ≤ n) : findDesc f n = some a := by
  induction n with
  | zero => exact absurd hmn (by omega)
  | succ n ih =>
    by_cases hc : m = n + 1
    · subst hc
      simp only [findDesc, hfm, Option.orElse]
    · have hf : f (n + 1) = none := hnone _ (by omega)
      simp only [findDesc, hf, Option.orElse]
      exact ih (by omega)

lemma findDesc_eq_none {α : Type} {f : Nat → Option α}
    (h : ∀ j, 1 ≤ j → f j = none) (n : Nat) : findDesc f n = none := by
  induction n with
  | zero => rfl
  | succ n ih =>
    simp only [findDesc, h (n + 1) (by omega), Option.orElse]
    exact ih

lemma greedyDot_eq_some {β : Type} (g rest : List Char) (ch : Char)
    (k : List Char → List Char → Option β) (out : β)
    (hg : g ≠ []) (hdot : dotAll g = true) (hk : k g rest = some out)
    (hmax : ∀ j, g.length < j → (g ++ ch :: rest)[j]? = some ch →
      k ((g ++ ch :: rest).take j) ((g ++ ch :: rest).drop (j + 1)) = none) :
    greedyDot (g ++ ch :: rest) ch k = some out := by
  have htake : (g ++ ch :: rest).take g.length = g := by
    rw [List.take_append_of_le_length (Nat.le_refl _), List.take_length]
  have hget : (g ++ ch :: rest)[g.length]? = some ch := by
    rw [List.getElem?_append_right (Nat.le_refl _)]
    simp
  have hdrop : (g ++ ch :: rest).drop (g.length + 1) = rest := by
    rw [List.drop_append]
    simp
  apply findDesc_eq_some (m := g.length)
  · have := List.length_pos.mpr hg
    omega
  · rw [htake, hget, hdrop, hdot]
    simpa using hk
  · intro j hj
    by_cases hch : (g ++ ch :: rest)[j]? = some ch
    · have hknone := hmax j hj hch
      cases hda : dotAll ((g ++ ch :: rest).take j) with
      | false => simp [hch, hda]
      | true => simp [hch, hda, hknone]
    · have hb : ((g ++ ch :: rest)[j]? == some ch) = false :=
        beq_eq_false_iff_ne.mpr hch
      simp [hb]
  · simp [List.length_append]

lemma greedyDot_eq_none {β : Type} (s : List Char) (ch : Char)
    (k : List Char → List Char → Option β) (h : ch ∉ s) :
    greedyDot s ch k = none := by
  apply findDesc_eq_none
  intro j _
  have hne : s[j]? ≠ some ch := fun hc => h (List.getElem?_mem hc)
  have hb : (s[j]? == some ch) = false := beq_eq_false_iff_ne.mpr hne
  simp [hb]

lemma getIdx_append_cons_of_gt {a b : List Char} {x ch : Char} {j : Nat}
    (hj : a.length < j) (h : (a ++ x :: b)[j]? = some ch) :
    b[j - a.length - 1]? = some ch := by
  rw [List.getElem?_append_right (by omega : a.length ≤ j)] at h
  rw [show j - a.length = (j - a.length - 1) + 1 from by omega,
    List.getElem?_cons_succ] at h
  exact h

lemma getIdx_cons_of_ne {b : List Char} {x ch : Char} {j : Nat}
    (h : (x :: b)[j]? = some ch) (hne : ch ≠ x) :
    ∃ j2, j = j2 + 1 ∧ b[j2]? = some ch := by
  cases j with
  | zero =>
    rw [List.getElem?_cons_zero] at h
    exact absurd (Option.some.inj h).symm hne
  | succ j2 =>
    rw [List.getElem?_cons_succ] at h
    exact ⟨j2, rfl, h⟩

lemma getIdx_append_of_not_mem {a b : List Char} {ch : Char} {j : Nat}
    (h : (a ++ b)[j]? = some ch) (hch : ch ∉ a) :
    ∃ j2, j = a.length + j2 ∧ b[j2]? = some ch := by
  rcases Nat.lt_or_ge j a.length with hj | hj
  · rw [List.getElem?_append_left hj] at h
    exact absurd (List.getElem?_mem h) hch
  · rw [List.getElem?_append_right hj] at h
    exact ⟨j - a.length, by omega, h⟩

end Taro

namespace Taro

lemma level5 (p l c r : List Char) (hr : r ≠ []) (dr : dotAll r = true) :
    greedyDot (r ++ [']']) ']' (contK5 p l c) = some (p, l, c) := by
  apply greedyDot_eq_some r [] ']' (contK5 p l c) (p, l, c) hr dr rfl
  intro j hj h
  have hnone : (r ++ [']'])[j]? = none :=
    List.getElem?_eq_none (by simp [List.length_append]; omega)
  rw [hnone] at h
  exact absurd h (by simp)

lemma level4 (p l c r : List Char)
    (hc : c ≠ []) (hr : r ≠ []) (dc : dotAll c = true) (dr : dotAll r = true)
    (hrr : ']' ∉ r) :
    greedyDot (c ++ ']' :: ('[' :: (r ++ [']']))) ']' (contK4 p l) =
      some (p, l, c) := by
  apply greedyDot_eq_some c ('[' :: (r ++ [']'])) ']' (contK4 p l) (p, l, c)
    hc dc
  · show greedyDot (r ++ [']']) ']' (contK5 p l c) = some (p, l, c)
    exact level5 p l c r hr dr
  · intro j hj hch
    have h1 : ('[' :: (r ++ [']']))[j - c.length - 1]? = some ']' :=
      getIdx_append_cons_of_gt hj hch
    obtain ⟨j2, hj2, h2⟩ := getIdx_cons_of_ne h1 (by decide)
    obtain ⟨j3, hj3, h3⟩ := getIdx_append_of_not_mem h2 hrr
    have hj30 : j3 = 0 := by
      cases j3 with
      | zero => rfl
      | succ j4 =>
        rw [List.getElem?_cons_succ] at h3
        simp at h3
    subst hj30
    have hdrop : (c ++ ']' :: ('[' :: (r ++ [']']))).drop (j + 1) = [] := by
      rw [show j + 1 = c.length + (r.length + 3) from by omega,
        List.drop_append,
        show r.length + 3 = (r.length + 2) + 1 from by omega,
        List.drop_succ_cons,
        show r.length + 2 = (r.length + 1) + 1 from by omega,
        List.drop_succ_cons,
        show r.length + 1 = r.length + 1 from rfl,
        List.drop_append]
      rfl
    rw [hdrop]
    rfl

lemma level3 (p l c r : List Char)
    (hl : l ≠ []) (hc : c ≠ []) (hr : r ≠ [])
    (dl : dotAll l = true) (dc : dotAll c = true) (dr : dotAll r = true)
    (hmc : ',' ∉ c) (hmr : ',' ∉ r) (hrr : ']' ∉ r) :
    greedyDot (l ++ ',' :: (c ++ ']' :: ('[' :: (r ++ [']'])))) ','
      (contK3 p) = some (p, l, c) := by
  apply greedyDot_eq_some l (c ++ ']' :: ('[' :: (r ++ [']'])))
    ',' (contK3 p) (p, l, c) hl dl
  · show greedyDot (c ++ ']' :: ('[' :: (r ++ [']']))) ']' (contK4 p l) =
      some (p, l, c)
    exact level4 p l c r hc hr dc dr hrr
  · intro j hj hch
    have h1 : (c ++ ']' :: ('[' :: (r ++ [']'])))[j - l.length - 1]? =
        some ',' := getIdx_append_cons_of_gt hj hch
    have hnm : ',' ∉ c ++ ']' :: ('[' :: (r ++ [']'])) := by
      intro hm
      rcases List.mem_append.mp hm with hm | hm
      · exact hmc hm
      · rcases List.mem_cons.mp hm with hm | hm
        · exact absurd hm (by decide)
        · rcases List.mem_cons.mp hm with hm | hm
          · exact absurd hm (by decide)
          · rcases List.mem_append.mp hm with hm | hm
            · exact hmr hm
            · rcases List.mem_cons.mp hm with hm | hm
              · exact absurd hm (by decide)
              · exact absurd hm (List.not_mem_nil _)
    exact absurd (List.getElem?_mem h1) hnm

end Taro


namespace Taro

lemma level2 (p l c r : List Char)
    (hp : p ≠ []) (hl : l ≠ []) (hc : c ≠ []) (hr : r ≠ [])
    (dp : dotAll p = true) (dl : dotAll l = true) (dc : dotAll c = true)
    (dr : dotAll r = true)
    (hcl : ':' ∉ l) (hcc : ':' ∉ c) (hcr : ':' ∉ r)
    (hmc : ',' ∉ c) (hmr : ',' ∉ r) (hrr : ']' ∉ r) :
    greedyDot (p ++ ':' :: (l ++ ',' :: (c ++ ']' :: ('[' :: (r ++ [']'])))))
      ':' contK2 = some (p, l, c) := by
  apply greedyDot_eq_some p (l ++ ',' :: (c ++ ']' :: ('[' :: (r ++ [']']))))
    ':' contK2 (p, l, c) hp dp
  · show greedyDot (l ++ ',' :: (c ++ ']' :: ('[' :: (r ++ [']'])))) ','
      (contK3 p) = some (p, l, c)
    exact level3 p l c r hl hc hr dl dc dr hmc hmr hrr
  · intro j hj hch
    have h1 := getIdx_append_cons_of_gt hj hch
    have hnm : ':' ∉ l ++ ',' :: (c ++ ']' :: ('[' :: (r ++ [']']))) := by
      intro hm
      rcases List.mem_append.mp hm with hm | hm
      · exact hcl hm
      · rcases List.mem_cons.mp hm with hm | hm
        · exact absurd hm (by decide)
        · rcases List.mem_append.mp hm with hm | hm
          · exact hcc hm
          · rcases List.mem_cons.mp hm with hm | hm
            · exact absurd hm (by decide)
            · rcases List.mem_cons.mp hm with hm | hm
              · exact absurd hm (by decide)
              · rcases List.mem_append.mp hm with hm | hm
                · exact hcr hm
                · rcases List.mem_cons.mp hm with hm | hm
                  · exact absurd hm (by decide)
                  · exact absurd hm (List.not_mem_nil _)
    exact absurd (List.getElem?_mem h1) hnm

lemma matchAt_extract (t p l c r : List Char)
    (ht : t ≠ []) (hp : p ≠ []) (hl : l ≠ []) (hc : c ≠ []) (hr : r ≠ [])
    (dt : dotAll t = true) (dp : dotAll p = true) (dl : dotAll l = true)
    (dc : dotAll c = true) (dr : dotAll r = true)
    (hbp : '[' ∉ p) (hbl : '[' ∉ l) (hbc : '[' ∉ c) (hbr : '[' ∉ r)
    (hcl : ':' ∉ l) (hcc : ':' ∉ c) (hcr : ':' ∉ r)
    (hmc : ',' ∉ c) (hmr : ',' ∉ r) (hrr : ']' ∉ r) :
    matchAt (t ++ '[' ::
      (p ++ ':' :: (l ++ ',' :: (c ++ ']' :: ('[' :: (r ++ [']'])))))) =
      some (p, l, c) := by
  show greedyDot (t ++ '[' ::
    (p ++ ':' :: (l ++ ',' :: (c ++ ']' :: ('[' :: (r ++ [']'])))))) '['
    contK1 = some (p, l, c)
  apply greedyDot_eq_some t
    (p ++ ':' :: (l ++ ',' :: (c ++ ']' :: ('[' :: (r ++ [']'])))))
    '[' contK1 (p, l, c) ht dt
  · show greedyDot
      (p ++ ':' :: (l ++ ',' :: (c ++ ']' :: ('[' :: (r ++ [']'])))))
      ':' contK2 = some (p, l, c)
    exact level2 p l c r hp hl hc hr dp dl dc dr hcl hcc hcr hmc hmr hrr
  · intro j hj hch
    have h1 := getIdx_append_cons_of_gt hj hch
    obtain ⟨j2, e2, h2⟩ := getIdx_append_of_not_mem h1 hbp
    obtain ⟨j3, e3, h3⟩ := getIdx_cons_of_ne h2 (by decide)
    obtain ⟨j4, e4, h4⟩ := getIdx_append_of_not_mem h3 hbl
    obtain ⟨j5, e5, h5⟩ := getIdx_cons_of_ne h4 (by decide)
    obtain ⟨j6, e6, h6⟩ := getIdx_append_of_not_mem h5 hbc
    obtain ⟨j7, e7, h7⟩ := getIdx_cons_of_ne h6 (by decide)
    have hj70 : j7 = 0 := by
      cases j7 with
      | zero => rfl
      | succ j8 =>
        rw [List.getElem?_cons_succ] at h7
        have hmem := List.getElem?_mem h7
        rcases List.mem_append.mp hmem with hm | hm
        · exact absurd hm hbr
        · rcases List.mem_cons.mp hm with hm | hm
          · exact absurd hm (by decide)
          · exact absurd hm (List.not_mem_nil _)
    subst hj70
    have hdrop : (t ++ '[' ::
        (p ++ ':' :: (l ++ ',' :: (c ++ ']' :: ('[' :: (r ++ [']'])))))).drop
        (j + 1) = r ++ [']'] := by
      rw [show j + 1 =
          t.length + (p.length + l.length + c.length + 5) from by omega,
        List.drop_append,
        show p.length + l.length + c.length + 5 =
          (p.length + (l.length + c.length + 4)) + 1 from by omega,
        List.drop_succ_cons,
        List.drop_append,
        show l.length + c.length + 4 = (l.length + (c.length + 3)) + 1
          from by omega,
        List.drop_succ_cons,
        List.drop_append,
        show c.length + 3 = (c.length + 2) + 1 from by omega,
        List.drop_succ_cons,
        List.drop_append]
      rfl
    rw [hdrop]
    show greedyDot (r ++ [']']) ':' contK2 = none
    apply greedyDot_eq_none
    intro hm
    rcases List.mem_append.mp hm with hm | hm
    · exact hcr hm
    · rcases List.mem_cons.mp hm with hm | hm
      · exact absurd hm (by decide)
      · exact absurd hm (List.not_mem_nil _)

lemma execPat_extract (t p l c r : List Char)
    (ht : t ≠ []) (hp : p ≠ []) (hl : l ≠ []) (hc : c ≠ []) (hr : r ≠ [])
    (dt : dotAll t = true) (dp : dotAll p = true) (dl : dotAll l = true)
    (dc : dotAll c = true) (dr : dotAll r = true)
    (hbp : '[' ∉ p) (hbl : '[' ∉ l) (hbc : '[' ∉ c) (hbr : '[' ∉ r)
    (hcl : ':' ∉ l) (hcc : ':' ∉ c) (hcr : ':' ∉ r)
    (hmc : ',' ∉ c) (hmr : ',' ∉ r) (hrr : ']' ∉ r) :
    execPat (t ++ '[' ::
      (p ++ ':' :: (l ++ ',' :: (c ++ ']' :: ('[' :: (r ++ [']'])))))) =
      some (p, l, c) := by
  obtain ⟨a, t2, rfl⟩ := List.exists_cons_of_ne_nil ht
  have hm2 : matchAt ((a :: t2) ++ '[' ::
      (p ++ ':' :: (l ++ ',' :: (c ++ ']' :: ('[' :: (r ++ [']'])))))) =
      some (p, l, c) :=
    matchAt_extract (a :: t2) p l c r (by simp) hp hl hc hr dt dp dl dc
      dr hbp hbl hbc hbr hcl hcc hcr hmc hmr hrr
  rw [List.cons_append] at hm2 ⊢
  simp only [execPat, hm2, Option.orElse]

end Taro

namespace Taro

lemma intercalate_single (sep a : String) : String.intercalate sep [a] = a := rfl

lemma printBuildError_all_logs (err : Option JSError) :
    (printBuildError err).all OutEvent.isLog = true := by
  unfold printBuildError
  split
  · split <;> rfl
  · rfl

lemma printBuildError_last (err : Option JSError) :
    (printBuildError err).getLast? = some (.log "") := by
  unfold printBuildError
  split
  · split <;> rfl
  · rfl

/-- C1 counterexample: on a compile pass with one error and one warning, the
watch-mode done hook renders the failure block and then also the warnings
block, so the pass is not rendered as exactly one outcome. -/
theorem claim_C1_counterexample :
    OutEvent.persist "⚠️  " (chalkYellow "Compile completes with warnings.\n")
        ∈ taroDone ["e"] ["w"] ∧
      OutEvent.persist "🙅  " (chalkRed "Compile failed!\n")
        ∈ taroDone ["e"] ["w"] := by
  decide

/-- C1 (amended): for every compile result with at least one error, a
Failure outcome is rendered regardless of the warning count, in watch mode
and in one-shot mode.  In one-shot mode the pass is rendered as exactly one
outcome (the error branch returns early and the error printer emits plain
logs only, never a persisted status line).  In watch mode Success is
exclusive with the other two outcomes, but a pass with both errors and
warnings renders the Failure block and then additionally the warnings
block. -/
theorem claim_C1_amended (e : String) (es ws : List String) (stats : String) :
    taroDone (e :: es) ws =
      [OutEvent.persist "🙅  " (chalkRed "Compile failed!\n"),
       OutEvent.log (e ++ "\n")] ++
      (if ws.isEmpty then []
       else
        [OutEvent.persist "⚠️  "
           (chalkYellow "Compile completes with warnings.\n"),
         OutEvent.log (String.intercalate "\n\n" (ws.take 1) ++ "\n")]) ∧
    buildProdCallback none (e :: es) ws stats =
      [OutEvent.persist "🙅  " (chalkRed "Compile failed!\n")] ++
        printBuildError (some (newError e)) ∧
    (printBuildError (some (newError e))).all OutEvent.isLog = true := by
  refine ⟨?_, ?_, printBuildError_all_logs _⟩
  · cases ws <;> simp [taroDone, intercalate_single]
  · simp [buildProdCallback, intercalate_single]

/-- C2 counterexample: in one-shot mode a pass with zero errors and two
warnings prints both warning entries (joined by a blank line), not exactly
one. -/
theorem claim_C2_counterexample :
    buildProdCallback none [] ["w1", "w2"] "" =
      [OutEvent.persist "⚠️  "
         (chalkYellow "Compile completes with warnings.\n"),
       OutEvent.log "w1\n\nw2",
       OutEvent.log ("\nSearch for the " ++
         chalkUnderline (chalkYellow "keywords") ++
         " to learn more about each warning."),
       OutEvent.log ("To ignore, add " ++
         chalkCyan "// eslint-disable-next-line" ++
         " to the line before.\n")] ∧
      OutEvent.log "w1\n\nw2" ∈ buildProdCallback none [] ["w1", "w2"] "" := by
  decide

/-- C2 (amended): for every compile result with zero errors and at least one
warning the outcome is WarningsOnly with a yellow persisted status line in
both modes; watch mode prints exactly the first warning entry, while
one-shot mode prints the whole warning list joined by blank lines, followed
by the two fixed guidance lines. -/
theorem claim_C2_amended (w : String) (ws : List String) (stats : String) :
    taroDone [] (w :: ws) =
      [OutEvent.persist "⚠️  "
         (chalkYellow "Compile completes with warnings.\n"),
       OutEvent.log (w ++ "\n")] ∧
    buildProdCallback none [] (w :: ws) stats =
      [OutEvent.persist "⚠️  "
         (chalkYellow "Compile completes with warnings.\n"),
       OutEvent.log (String.intercalate "\n\n" (w :: ws)),
       OutEvent.log ("\nSearch for the " ++
         chalkUnderline (chalkYellow "keywords") ++
         " to learn more about each warning."),
       OutEvent.log ("To ignore, add " ++
         chalkCyan "// eslint-disable-next-line" ++
         " to the line before.\n")] := by
  constructor
  · simp [taroDone, intercalate_single]
  · simp [buildProdCallback]

/-- C3: on a compile result with empty error and warning containers the
outcome is Success: exactly one green persisted line is emitted in watch
mode, and in one-shot mode the formatted stats summary is additionally
written. -/
theorem claim_C3 (stats : String) :
    taroDone [] [] =
      [OutEvent.persist "✅ " (chalkGreen "Compile successfully!\n")] ∧
    buildProdCallback none [] [] stats =
      [OutEvent.persist "✅ " (chalkGreen "Compile successfully!\n"),
       OutEvent.write (stats ++ "\n")] :=
  ⟨rfl, rfl⟩

end Taro

namespace Taro

lemma printBuildError_matched (msg stack : String) (p l c : List Char)
    (hs : stack ≠ "") (hm : hasMarker msg = true)
    (he : execPat stack.toList = some (p, l, c)) :
    printBuildError (some ⟨some msg, some stack⟩) =
      [.log (minifyLogText p l c), .log ""] := by
  have he2 : execPat stack.data = some (p, l, c) := he
  simp [printBuildError, jsMessage, jsStack, JSVal.truthy, JSVal.isStr,
    JSVal.strVal, hs, hm, tryMinify, he2]

lemma printBuildError_unmatched (msg stack : String)
    (hs : stack ≠ "") (hm : hasMarker msg = true)
    (he : execPat stack.toList = none) :
    printBuildError (some ⟨some msg, some stack⟩) =
      [.log ("Failed to minify the bundle. " ++ stack), .log ""] := by
  have he2 : execPat stack.data = none := he
  simp [printBuildError, jsMessage, jsStack, JSVal.truthy, JSVal.isStr,
    JSVal.strVal, hs, hm, tryMinify, he2, inspectErr]

lemma printBuildError_no_marker (msg : String) (st : Option String)
    (hm : hasMarker msg = false) (hne : msg ≠ "") :
    printBuildError (some ⟨some msg, st⟩) = [.log (msg ++ "\n"), .log ""] := by
  cases st <;>
    simp [printBuildError, jsMessage, jsStack, JSVal.truthy, JSVal.isStr,
      JSVal.strVal, hm, hne]

/-- C4: for an Error whose message holds the minifier marker and whose stack
is free text, then a bracketed path:line,column group, then another
bracketed group (components nonempty, free of line terminators and of the
delimiter characters that would make the greedy pattern pick another
decomposition), printBuildError extracts path, line and column exactly and
prints them; with a stack the pattern does not match it prints the
unparsed failure text; and on every input the final log of the print flow
is reached, so no exception escapes to the caller. -/
theorem claim_C4 :
    (∀ (t p l c r : List Char) (msg stack : String),
      t ≠ [] → p ≠ [] → l ≠ [] → c ≠ [] → r ≠ [] →
      dotAll t = true → dotAll p = true → dotAll l = true →
      dotAll c = true → dotAll r = true →
      '[' ∉ p → '[' ∉ l → '[' ∉ c → '[' ∉ r →
      ':' ∉ l → ':' ∉ c → ':' ∉ r →
      ',' ∉ c → ',' ∉ r → ']' ∉ r →
      hasMarker msg = true →
      stack.toList = t ++ '[' ::
        (p ++ ':' :: (l ++ ',' :: (c ++ ']' :: ('[' :: (r ++ [']']))))) →
      printBuildError (some ⟨some msg, some stack⟩) =
        [.log (minifyLogText p l c), .log ""]) ∧
    (∀ (msg stack : String), stack ≠ "" → hasMarker msg = true →
      execPat stack.toList = none →
      printBuildError (some ⟨some msg, some stack⟩) =
        [.log ("Failed to minify the bundle. " ++ stack), .log ""]) ∧
    (∀ err : Option JSError,
      (printBuildError err).getLast? = some (.log "")) := by
  refine ⟨?_, printBuildError_unmatched, printBuildError_last⟩
  intro t p l c r msg stack ht hp hl hc hr dt dp dl dc dr hbp hbl hbc hbr
    hcl hcc hcr hmc hmr hrr hmark hstack
  have hs : stack ≠ "" := by
    intro h
    subst h
    have hlen := congrArg List.length hstack
    have hpos := List.length_pos.mpr ht
    simp [List.length_append] at hlen
    omega
  have he : execPat stack.toList = some (p, l, c) := by
    rw [hstack]
    exact execPat_extract t p l c r ht hp hl hc hr dt dp dl dc dr hbp hbl
      hbc hbr hcl hcc hcr hmc hmr hrr
  exact printBuildError_matched msg stack p l c hs hmark he

/-- C4 witness: the extraction theorem applied at a concrete minifier
error. -/
theorem claim_C4_witness :
    printBuildError (some ⟨some "x from UglifyJs",
        some "tt[a.js:12,7][rest]"⟩) =
      [.log (minifyLogText "a.js".toList "12".toList "7".toList), .log ""] :=
  claim_C4.1 "tt".toList "a.js".toList "12".toList "7".toList "rest".toList
    "x from UglifyJs" "tt[a.js:12,7][rest]"
    (by decide) (by decide) (by decide) (by decide) (by decide)
    (by decide) (by decide) (by decide) (by decide) (by decide)
    (by decide) (by decide) (by decide) (by decide)
    (by decide) (by decide) (by decide)
    (by decide) (by decide) (by decide)
    (by decide) (by decide)

/-- C9: when the minifier stack pattern matches and the extracted column
capture is the string 0, the location is printed as path:line with no
column suffix; for any other column capture the location is printed as
path:line:column. -/
theorem claim_C9 (msg stack : String) (p l c : List Char)
    (hs : stack ≠ "") (hm : hasMarker msg = true)
    (he : execPat stack.toList = some (p, l, c)) :
    (c = ['0'] →
      printBuildError (some ⟨some msg, some stack⟩) =
        [.log ("Failed to minify the code from this file: \n\n " ++
           chalkYellow ("\t" ++ p.asString ++ ":" ++ l.asString) ++ " \n"),
         .log ""]) ∧
    (c ≠ ['0'] →
      printBuildError (some ⟨some msg, some stack⟩) =
        [.log ("Failed to minify the code from this file: \n\n " ++
           chalkYellow ("\t" ++ p.asString ++ ":" ++ l.asString ++ ":" ++
             c.asString) ++ " \n"),
         .log ""]) := by
  have hout := printBuildError_matched msg stack p l c hs hm he
  constructor
  · intro hc
    rw [hout, minifyLogText, if_pos hc]
    simp
  · intro hc
    rw [hout, minifyLogText, if_neg hc]
    simp [String.append_assoc]

/-- C9 witness: a concrete minifier error whose column capture is 0 prints
no column suffix. -/
theorem claim_C9_witness :
    printBuildError (some ⟨some "x from UglifyJs", some "mm[a.js:3,0][b]"⟩) =
      [.log ("Failed to minify the code from this file: \n\n " ++
         chalkYellow ("\t" ++ "a.js".toList.asString ++ ":" ++
           "3".toList.asString) ++ " \n"),
       .log ""] :=
  (claim_C9 "x from UglifyJs" "mm[a.js:3,0][b]"
    "a.js".toList "3".toList "0".toList
    (by decide) (by decide) (by decide)).1 rfl

/-- C10: printBuildError is total at its public interface: a null input and
a message-less Error degrade to printing the raw value on the fallback
branch, and on every input the final log of the print flow is reached, so
no exception escapes. -/
theorem claim_C10 :
    printBuildError none = [.log ("null" ++ "\n"), .log ""] ∧
    (∀ st : Option String,
      printBuildError (some ⟨none, st⟩) =
        [.log ("Error" ++ "\n"), .log ""]) ∧
    (∀ err : Option JSError,
      (printBuildError err).getLast? = some (.log "")) := by
  refine ⟨rfl, ?_, printBuildError_last⟩
  intro st
  cases st <;>
    simp [printBuildError, jsMessage, jsStack, JSVal.truthy, JSVal.isStr,
      errToString]

end Taro

namespace Taro

lemma runDoneFirst_false (lanUrl localUrl : String) (n : Nat) :
    runDoneFirst lanUrl localUrl n false = List.replicate n [] := by
  induction n with
  | zero => rfl
  | succ n ih => simp [runDoneFirst, taroDoneFirst, ih, List.replicate]

/-- C5: across any sequence of n+1 compile-complete events in one watch
process, the listening banner is printed on exactly the first event and on
no later event: the one-shot isFirst latch yields the banner output once,
followed by empty outputs. -/
theorem claim_C5 (lanUrl localUrl : String) (n : Nat) :
    runDoneFirst lanUrl localUrl (n + 1) true =
      bannerEvents lanUrl localUrl :: List.replicate n [] := by
  simp [runDoneFirst, taroDoneFirst, runDoneFirst_false]

/-- C6: for every compile result with at least one error the display is
truncated to the first element: the error list is cut to length one before
joining, the watch-mode hook prints exactly the first error entry, and the
one-shot callback prints exactly the first error entry through the error
printer (for an ordinary error text, one that is nonempty and does not
carry the minifier marker). -/
theorem claim_C6 (e : String) (es ws : List String) (stats : String)
    (hm : hasMarker e = false) (hne : e ≠ "") :
    (e :: es).take 1 = [e] ∧
    taroDone (e :: es) ws =
      [OutEvent.persist "🙅  " (chalkRed "Compile failed!\n"),
       OutEvent.log (e ++ "\n")] ++
      (if ws.isEmpty then []
       else
        [OutEvent.persist "⚠️  "
           (chalkYellow "Compile completes with warnings.\n"),
         OutEvent.log (String.intercalate "\n\n" (ws.take 1) ++ "\n")]) ∧
    buildProdCallback none (e :: es) ws stats =
      [OutEvent.persist "🙅  " (chalkRed "Compile failed!\n"),
       OutEvent.log (e ++ "\n"), OutEvent.log ""] := by
  refine ⟨by simp, ?_, ?_⟩
  · cases ws <;> simp [taroDone, intercalate_single]
  · have hpe := printBuildError_no_marker e
      (some ("Error: " ++ e ++ "\n    at Object.<anonymous>")) hm hne
    simp [buildProdCallback, newError, intercalate_single, hpe]

/-- C6 witness: the truncation theorem applied at the spec scenario input
with a second error present. -/
theorem claim_C6_witness :
    ("Module not found: ./x" :: ["second"]).take 1 =
        ["Module not found: ./x"] ∧
      taroDone ("Module not found: ./x" :: ["second"]) [] =
        [OutEvent.persist "🙅  " (chalkRed "Compile failed!\n"),
         OutEvent.log ("Module not found: ./x" ++ "\n")] ++ [] ∧
      buildProdCallback none ("Module not found: ./x" :: ["second"]) [] "" =
        [OutEvent.persist "🙅  " (chalkRed "Compile failed!\n"),
         OutEvent.log ("Module not found: ./x" ++ "\n"), OutEvent.log ""] :=
  claim_C6 "Module not found: ./x" ["second"] [] "" (by decide) (by decide)

/-- C7: the spinner singleton: starting from the empty closure cache, every
getServeSpinner call in any interleaving of session operations returns the
one instance created on first use. -/
theorem claim_C7 (ops : List SessionOp) :
    runOps ops ⟨none, 0⟩ =
      List.replicate (countGets ops)
        ⟨0, "Starting development server, please wait~"⟩ := by
  have cached : ∀ (rest : List SessionOp) (sp : Spinner) (m : Nat),
      runOps rest ⟨some sp, m⟩ = List.replicate (countGets rest) sp := by
    intro rest
    induction rest with
    | nil => intro sp m; rfl
    | cons op rest2 ih =>
      intro sp m
      cases op with
      | getSpinner =>
        simp [runOps, getServeSpinner, countGets, List.replicate, ih sp m]
      | other => simp [runOps, countGets, ih sp m]
  induction ops with
  | nil => rfl
  | cons op rest ih =>
    cases op with
    | getSpinner =>
      simp [runOps, getServeSpinner, countGets, List.replicate, cached rest]
    | other => simpa [runOps, countGets] using ih

/-- C8: in one-shot mode a non-null engine error makes the run callback
print through printBuildError and return at once: the output is exactly the
error-printer output, which consists of console logs only, so no status
line is persisted. -/
theorem claim_C8 (e : JSError) (errors warnings : List String)
    (stats : String) :
    buildProdCallback (some e) errors warnings stats =
        printBuildError (some e) ∧
      (printBuildError (some e)).all OutEvent.isLog = true :=
  ⟨rfl, printBuildError_all_logs _⟩

end Taro
